import Mathlib

/-!
Verification of the core of `mcp-imagetools` (an MCP image-manipulation server)
against its natural-language specification.

The development shallowly embeds the Python sources
`src/mcp_image_tools/utils.py` and `src/mcp_image_tools/server.py`:

* pure pixel arithmetic (`color_distance`, the chromakey loop of
  `chromakey_to_transparent`) becomes pure Lean functions on `ℕ`/`ℤ`/`ℝ`;
* Python floats are idealised as exact real numbers; `math.sqrt` becomes
  `Real.sqrt` and Python's `int(...)` (truncation toward zero) becomes `pyInt`.
  For each real-valued definition an exact integer-arithmetic refinement is
  provided and proved equal, so that concrete runs can be evaluated by the
  kernel;
* the filesystem touched by `safe_output_path` / `save_image_to_path` becomes
  an explicit state (`FS`): an association list of files plus the set of
  existing directories; `Path.resolve()` is modelled as the identity on
  already-canonical absolute paths, and `tempfile.mkstemp` takes the fresh
  name it would choose as an explicit argument;
* fallible steps return `Option`/`Except` values.
-/

/-! ## Colors and pixels (utils.py, server.py) -/

/-- An RGB color triple, as produced by `parse_hex_color`.  Channels are
integers: ordinary inputs give values in `[0,255]`, but Python's `int(s, 16)`
can also yield negative channels (see `pyIntHex2`). -/
abbrev Color := ℤ × ℤ × ℤ

/-- One RGBA pixel of a PIL pixel buffer (mode `RGBA`): four 8-bit channels. -/
structure Pixel where
  r : ℕ
  g : ℕ
  b : ℕ
  a : ℕ
deriving DecidableEq, Repr

/-- The squared Euclidean RGB distance
`(r1-r2)^2 + (g1-g2)^2 + (b1-b2)^2` as a natural number.  This is the exact
square of `color_distance` from `utils.py`. -/
def colorDist2 (c1 c2 : Color) : ℕ :=
  (c1.1 - c2.1).natAbs ^ 2 + (c1.2.1 - c2.2.1).natAbs ^ 2 +
    (c1.2.2 - c2.2.2).natAbs ^ 2

/-- The function `utils.color_distance`: the Euclidean distance between two RGB colors,
`math.sqrt((r1-r2)**2 + (g1-g2)**2 + (b1-b2)**2)`, with the float
computation idealised as exact real arithmetic. -/
noncomputable def color_distance (c1 c2 : Color) : ℝ :=
  Real.sqrt (((c1.1 : ℝ) - c2.1) ^ 2 + ((c1.2.1 : ℝ) - c2.2.1) ^ 2 +
    ((c1.2.2 : ℝ) - c2.2.2) ^ 2)

theorem color_distance_eq_sqrt_colorDist2 (c1 c2 : Color) :
    color_distance c1 c2 = Real.sqrt (colorDist2 c1 c2) := by
  unfold color_distance colorDist2
  congr 1
  push_cast [Int.cast_natAbs]
  simp [sq_abs]

/-- Python's `int(x)` on a real `x`: truncation toward zero. -/
noncomputable def pyInt (x : ℝ) : ℤ := if 0 ≤ x then ⌊x⌋ else -⌊-x⌋

/-- The pixel of a `Color` as read back from an RGBA pixel. -/
def Pixel.rgb (p : Pixel) : Color := ((p.r : ℤ), (p.g : ℤ), (p.b : ℤ))

/-- The per-pixel body of the chromakey loop of
`chromakey_to_transparent` (`server.py`, lines 110–121), transcribed
literally over exact reals:

```
r, g, b, a = pixels[x, y]
distance = color_distance((r, g, b), key_rgb)
if distance < tolerance:
    pixels[x, y] = (r, g, b, 0)            # and pixels_transparent += 1
elif distance < tolerance * 3:
    alpha = int(255 * (distance - tolerance) / (tolerance * 2))
    pixels[x, y] = (r, g, b, min(255, alpha))
```

The returned `Bool` records whether the pixel was counted in
`pixels_transparent`. -/
noncomputable def applyKeyPixelSpec (key : Color) (tolerance : ℕ) (p : Pixel) :
    Pixel × Bool :=
  let distance := color_distance p.rgb key
  if distance < (tolerance : ℝ) then (⟨p.r, p.g, p.b, 0⟩, true)
  else if distance < ((tolerance : ℝ) * 3) then
    let alpha : ℤ := pyInt (255 * (distance - tolerance) / (tolerance * 2))
    (⟨p.r, p.g, p.b, (min 255 alpha).toNat⟩, false)
  else (p, false)

/-- Executable refinement of `applyKeyPixelSpec`: the guards
`distance < tolerance` and `distance < tolerance * 3` become the exact
integer tests `d2 < t²` and `d2 < (3t)²` on the squared distance, and the
graduated alpha `int(255 * (distance - tolerance) / (tolerance * 2))`
becomes `(Nat.sqrt (65025 * d2) - 255 * t) / (2 * t)` (exact, since
`255 * distance = √(65025 * d2)` and integer floor-division commutes with
the floor of the real quotient).  `applyKeyPixel_eq_spec` proves the two
definitions equal. -/
def applyKeyPixel (key : Color) (tolerance : ℕ) (p : Pixel) : Pixel × Bool :=
  let d2 := colorDist2 p.rgb key
  if d2 < tolerance * tolerance then (⟨p.r, p.g, p.b, 0⟩, true)
  else if d2 < (tolerance * 3) * (tolerance * 3) then
    let alpha : ℕ := (Nat.sqrt (65025 * d2) - 255 * tolerance) / (2 * tolerance)
    (⟨p.r, p.g, p.b, min 255 alpha⟩, false)
  else (p, false)

/-- Floor commutes with division: `⌊x / n⌋ = ⌊x⌋ / n` for a nonnegative real numerator and a positive
natural denominator. -/
theorem int_floor_div_natCast {x : ℝ} {n : ℕ} (hx : 0 ≤ x) (hn : 0 < n) :
    ⌊x / (n : ℝ)⌋ = ⌊x⌋ / (n : ℤ) := by
  have hdiv : (0 : ℝ) ≤ x / (n : ℝ) := div_nonneg hx (by positivity)
  rw [← Int.natCast_floor_eq_floor hdiv, ← Int.natCast_floor_eq_floor hx,
    Nat.floor_div_nat, Int.natCast_div]

/-- For naturals, `√s < t ↔ s < t*t`. -/
theorem sqrt_lt_natCast_iff (s t : ℕ) :
    Real.sqrt (s : ℝ) < (t : ℝ) ↔ s < t * t := by
  rcases Nat.eq_zero_or_pos t with rfl | ht
  · simp [Real.sqrt_nonneg, not_lt.2 (Real.sqrt_nonneg (s : ℝ))]
  · rw [Real.sqrt_lt' (by exact_mod_cast ht)]
    rw [show ((t : ℝ) ^ 2) = ((t * t : ℕ) : ℝ) by push_cast; ring]
    exact_mod_cast Iff.rfl

/-- In the graduated zone, the real-number alpha of the source equals the
executable integer computation. -/
theorem ramp_alpha_eq (s t : ℕ) (ht : 0 < t) (hs : t * t ≤ s) :
    pyInt (255 * (Real.sqrt (s : ℝ) - (t : ℝ)) / ((t : ℝ) * 2)) =
      ((Nat.sqrt (65025 * s) - 255 * t : ℕ) : ℤ) / ((2 * t : ℕ) : ℤ) := by
  have htR : (0 : ℝ) < (t : ℝ) := by exact_mod_cast ht
  have hts : (t : ℝ) ≤ Real.sqrt (s : ℝ) := by
    rw [show ((t : ℝ)) = Real.sqrt ((t : ℝ) ^ 2) by
      rw [Real.sqrt_sq (le_of_lt htR)]]
    apply Real.sqrt_le_sqrt
    rw [show ((t : ℝ) ^ 2) = ((t * t : ℕ) : ℝ) by push_cast; ring]
    exact_mod_cast hs
  have hnum : (0 : ℝ) ≤ 255 * (Real.sqrt (s : ℝ) - (t : ℝ)) := by
    have := sub_nonneg.2 hts
    positivity
  have hval : (0 : ℝ) ≤ 255 * (Real.sqrt (s : ℝ) - (t : ℝ)) / ((t : ℝ) * 2) :=
    div_nonneg hnum (by positivity)
  -- 255 * √s = √(65025 * s)
  have h255 : 255 * Real.sqrt (s : ℝ) = Real.sqrt ((65025 * s : ℕ) : ℝ) := by
    push_cast
    rw [Real.sqrt_mul (by norm_num) (s : ℝ),
      show ((65025 : ℝ)) = (255 : ℝ) ^ 2 by norm_num,
      Real.sqrt_sq (by norm_num)]
  have hsqrt_ge : (255 * t : ℕ) ≤ Nat.sqrt (65025 * s) := by
    have : (255 * t) * (255 * t) ≤ 65025 * s := by nlinarith
    calc (255 * t : ℕ) = Nat.sqrt ((255 * t) * (255 * t)) := by
          rw [Nat.sqrt_eq]
      _ ≤ Nat.sqrt (65025 * s) := Nat.sqrt_le_sqrt this
  rw [pyInt, if_pos hval]
  have hrw : 255 * (Real.sqrt (s : ℝ) - (t : ℝ)) / ((t : ℝ) * 2) =
      (Real.sqrt ((65025 * s : ℕ) : ℝ) - ((255 * t : ℕ) : ℝ)) /
        (((2 * t : ℕ) : ℝ)) := by
    rw [← h255]; push_cast; ring
  rw [hrw, int_floor_div_natCast (by
        have := Real.nat_sqrt_le_real_sqrt (a := 65025 * s)
        have : ((255 * t : ℕ) : ℝ) ≤ Real.sqrt ((65025 * s : ℕ) : ℝ) :=
          le_trans (by exact_mod_cast hsqrt_ge) this
        linarith) (by omega),
    Int.floor_sub_nat, Real.floor_real_sqrt_eq_nat_sqrt]
  congr 1
  omega

/-- The executable chromakey pixel step agrees exactly with the literal
real-number transcription of the source, for every color, tolerance and
pixel. -/
theorem applyKeyPixel_eq_spec (key : Color) (t : ℕ) (p : Pixel) :
    applyKeyPixel key t p = applyKeyPixelSpec key t p := by
  unfold applyKeyPixel applyKeyPixelSpec
  rw [color_distance_eq_sqrt_colorDist2]
  set s := colorDist2 p.rgb key with hs
  have h1 : (Real.sqrt (s : ℝ) < (t : ℝ)) ↔ s < t * t := sqrt_lt_natCast_iff s t
  have h3 : (Real.sqrt (s : ℝ) < (t : ℝ) * 3) ↔ s < (t * 3) * (t * 3) := by
    rw [show ((t : ℝ) * 3) = ((t * 3 : ℕ) : ℝ) by push_cast; ring]
    exact sqrt_lt_natCast_iff s (t * 3)
  by_cases hz1 : s < t * t
  · rw [if_pos hz1, if_pos (h1.2 hz1)]
  · rw [if_neg hz1, if_neg (fun h => hz1 (h1.1 h))]
    by_cases hz3 : s < (t * 3) * (t * 3)
    · rw [if_pos hz3, if_pos (h3.2 hz3)]
      have ht : 0 < t := by
        rcases Nat.eq_zero_or_pos t with rfl | ht
        · omega
        · exact ht
      have halpha := ramp_alpha_eq s t ht (not_lt.1 hz1)
      simp only [Prod.mk.injEq, Pixel.mk.injEq, true_and, and_true]
      rw [halpha]
      rw [show ((Nat.sqrt (65025 * s) - 255 * t : ℕ) : ℤ) / ((2 * t : ℕ) : ℤ) =
          (((Nat.sqrt (65025 * s) - 255 * t) / (2 * t) : ℕ) : ℤ) from
        (Int.natCast_div _ _).symm]
      rw [show (min 255 (((Nat.sqrt (65025 * s) - 255 * t) / (2 * t) : ℕ) : ℤ)) =
          ((min 255 ((Nat.sqrt (65025 * s) - 255 * t) / (2 * t)) : ℕ) : ℤ) by
        push_cast; rfl]
      rw [Int.toNat_natCast]
    · rw [if_neg hz3, if_neg (fun h => hz3 (h3.1 h))]

/-! ## The chromakey loop (server.py, lines 104–121) -/

/-- A decoded RGBA pixel buffer: a list of rows (index `y`), each a list of
pixels (index `x`), mirroring PIL's `img.load()` random-access raster after
`img.convert('RGBA')`. -/
abbrev Buffer := List (List Pixel)

/-- One iteration of the inner `for x:` loop of `chromakey_to_transparent`:
key one pixel, prepend it to the processed prefix of the current row, and
bump `pixels_processed` and (when fully transparent) `pixels_transparent`. -/
def chromakeyPixelStep (key : Color) (tolerance : ℕ)
    (st : List Pixel × ℕ × ℕ) (p : Pixel) : List Pixel × ℕ × ℕ :=
  let (q, madeTransparent) := applyKeyPixel key tolerance p
  (q :: st.1, st.2.1 + 1, st.2.2 + if madeTransparent then 1 else 0)

/-- One iteration of the outer `for y:` loop: process a whole row, threading
the two counters through. -/
def chromakeyRowStep (key : Color) (tolerance : ℕ)
    (st : Buffer × ℕ × ℕ) (row : List Pixel) : Buffer × ℕ × ℕ :=
  let inner := row.foldl (chromakeyPixelStep key tolerance) ([], st.2.1, st.2.2)
  (inner.1.reverse :: st.1, inner.2)

/-- The nested `for y: for x:` loop of `chromakey_to_transparent`
(`server.py`, lines 105–121): applies `applyKeyPixel` to every pixel while
accumulating the `pixels_processed` and `pixels_transparent` counters.
Returns the mutated buffer and the two counters. -/
def chromakeyLoop (key : Color) (tolerance : ℕ) (buf : Buffer) :
    Buffer × ℕ × ℕ :=
  let outer := buf.foldl (chromakeyRowStep key tolerance) ([], 0, 0)
  (outer.1.reverse, outer.2)

/-- The inner fold maps `applyKeyPixel` over the row (reversed onto the
accumulator) and adds the row's length and transparent-pixel count to the
counters. -/
theorem foldl_chromakeyPixelStep (key : Color) (t : ℕ) (row : List Pixel) :
    ∀ (acc : List Pixel) (pr tr : ℕ),
      row.foldl (chromakeyPixelStep key t) (acc, pr, tr) =
        ((row.map (fun p => (applyKeyPixel key t p).1)).reverse ++ acc,
          pr + row.length,
          tr + row.countP (fun p => (applyKeyPixel key t p).2)) := by
  induction row with
  | nil => intro acc pr tr; simp
  | cons p rest ih =>
      intro acc pr tr
      simp only [List.foldl_cons, chromakeyPixelStep, List.map_cons,
        List.reverse_cons, List.countP_cons, List.length_cons, ih,
        Prod.mk.injEq]
      refine ⟨by simp, by omega, ?_⟩
      rcases h : (applyKeyPixel key t p).2 <;> simp [h]
      all_goals omega

/-- The loop `chromakeyLoop` computed in closed form: the buffer is mapped pixelwise
through `applyKeyPixel`, `pixels_processed` is the total pixel count, and
`pixels_transparent` counts the pixels of the first (fully transparent)
zone. -/
theorem chromakeyLoop_spec (key : Color) (t : ℕ) (buf : Buffer) :
    chromakeyLoop key t buf =
      (buf.map (fun row => row.map (fun p => (applyKeyPixel key t p).1)),
        (buf.map List.length).sum,
        (buf.map (fun row =>
          row.countP (fun p => (applyKeyPixel key t p).2))).sum) := by
  have main : ∀ (rows : Buffer) (acc : Buffer) (pr tr : ℕ),
      rows.foldl (chromakeyRowStep key t) (acc, pr, tr) =
        ((rows.map (fun row =>
            row.map (fun p => (applyKeyPixel key t p).1))).reverse ++ acc,
          pr + (rows.map List.length).sum,
          tr + (rows.map (fun row =>
            row.countP (fun p => (applyKeyPixel key t p).2))).sum) := by
    intro rows
    induction rows with
    | nil => intro acc pr tr; simp
    | cons row rest ih =>
        intro acc pr tr
        simp only [List.foldl_cons, chromakeyRowStep,
          foldl_chromakeyPixelStep, List.map_cons, List.reverse_cons,
          List.sum_cons, ih, List.reverse_append, List.reverse_reverse,
          Prod.mk.injEq]
        refine ⟨by simp, by omega, by omega⟩
  unfold chromakeyLoop
  rw [main]
  simp

/-- Build a `w × h` buffer from a pixel-valued function of `(x, y)`. -/
def mkImage (w h : ℕ) (f : ℕ → ℕ → Pixel) : Buffer :=
  (List.range h).map (fun y => (List.range w).map (fun x => f x y))

/-- The 100×100 test image of the specification's chromakey scenario: pure
green everywhere except a 40×40 pure red square covering
`30 ≤ x < 70`, `30 ≤ y < 70` (as built by `create_chromakey_test_image` in
`tests/test_tools.py`), decoded to RGBA (alpha 255). -/
def scenarioImage : Buffer :=
  mkImage 100 100 (fun x y =>
    if 30 ≤ x ∧ x < 70 ∧ 30 ≤ y ∧ y < 70 then ⟨255, 0, 0, 255⟩
    else ⟨0, 255, 0, 255⟩)

set_option maxRecDepth 10000 in
/-- C5: keying the 100×100 green/red scenario image with key `(0,255,0)`
and tolerance 70 gives alpha 0 at the corner pixel `(0,0)`, alpha 255 at
the center pixel `(50,50)`, `pixels_processed = 10000` and
`pixels_made_transparent = 8400`. -/
theorem chromakey_scenario_100x100 :
    (((chromakeyLoop (0, 255, 0) 70 scenarioImage).1.getD 0 []).getD 0
        ⟨0, 0, 0, 0⟩).a = 0 ∧
    (((chromakeyLoop (0, 255, 0) 70 scenarioImage).1.getD 50 []).getD 50
        ⟨0, 0, 0, 0⟩).a = 255 ∧
    (chromakeyLoop (0, 255, 0) 70 scenarioImage).2.1 = 10000 ∧
    (chromakeyLoop (0, 255, 0) 70 scenarioImage).2.2 = 8400 := by
  rw [chromakeyLoop_spec]
  refine ⟨?_, ?_, ?_, ?_⟩ <;> decide

/-! ## C2/C3: the three-zone alpha policy -/

/-- C2: for every pixel and every tolerance `t > 0`, the chromakey pixel
step assigns alpha by the three-zone policy on the Euclidean RGB distance
`d` to the key color: `d < t` gives alpha 0 with RGB unchanged (and the
pixel is counted as made transparent); `t ≤ d < 3t` gives
`alpha = min 255 ⌊255 * (d - t) / (2 * t)⌋` with RGB unchanged; `3t ≤ d`
leaves the pixel entirely unchanged. -/
theorem applyKey_three_zone_policy (key : Color) (t : ℕ) (p : Pixel)
    (ht : 0 < t) :
    (color_distance p.rgb key < (t : ℝ) →
      applyKeyPixel key t p = (⟨p.r, p.g, p.b, 0⟩, true)) ∧
    ((t : ℝ) ≤ color_distance p.rgb key →
      color_distance p.rgb key < 3 * (t : ℝ) →
      applyKeyPixel key t p =
        (⟨p.r, p.g, p.b,
          min 255 (⌊255 * (color_distance p.rgb key - (t : ℝ)) /
            (2 * (t : ℝ))⌋.toNat)⟩, false)) ∧
    (3 * (t : ℝ) ≤ color_distance p.rgb key →
      applyKeyPixel key t p = (p, false)) := by
  rw [applyKeyPixel_eq_spec]
  unfold applyKeyPixelSpec
  have htR : (0 : ℝ) < (t : ℝ) := by exact_mod_cast ht
  refine ⟨fun h1 => ?_, fun h2a h2b => ?_, fun h3 => ?_⟩
  · rw [if_pos h1]
  · rw [if_neg (not_lt.2 h2a), if_pos (by rw [mul_comm] at h2b; exact h2b)]
    have hval : (0 : ℝ) ≤
        255 * (color_distance p.rgb key - (t : ℝ)) / ((t : ℝ) * 2) := by
      have h := sub_nonneg.2 h2a
      positivity
    have hfloor : (0 : ℤ) ≤
        ⌊255 * (color_distance p.rgb key - (t : ℝ)) / ((t : ℝ) * 2)⌋ :=
      Int.floor_nonneg.2 hval
    simp only [pyInt, if_pos hval, Prod.mk.injEq, Pixel.mk.injEq,
      true_and, and_true]
    rw [show (2 : ℝ) * (t : ℝ) = (t : ℝ) * 2 by ring]
    omega
  · have h1 : ¬ color_distance p.rgb key < (t : ℝ) := by
      push_neg
      nlinarith
    have h3' : ¬ color_distance p.rgb key < (t : ℝ) * 3 := by
      push_neg
      nlinarith
    rw [if_neg h1, if_neg h3']

/-- Witness for `applyKey_three_zone_policy` at key `(0,255,0)`,
tolerance 70 and the pure-green opaque pixel. -/
theorem applyKey_three_zone_policy_witness :
    0 < 70 ∧
    ((color_distance (Pixel.mk 0 255 0 255).rgb (0, 255, 0) < (70 : ℝ) →
      applyKeyPixel (0, 255, 0) 70 ⟨0, 255, 0, 255⟩ =
        (⟨0, 255, 0, 0⟩, true)) ∧
    ((70 : ℝ) ≤ color_distance (Pixel.mk 0 255 0 255).rgb (0, 255, 0) →
      color_distance (Pixel.mk 0 255 0 255).rgb (0, 255, 0) <
        3 * ((70 : ℕ) : ℝ) →
      applyKeyPixel (0, 255, 0) 70 ⟨0, 255, 0, 255⟩ =
        (⟨0, 255, 0,
          min 255 (⌊255 *
            (color_distance (Pixel.mk 0 255 0 255).rgb (0, 255, 0) -
              ((70 : ℕ) : ℝ)) / (2 * ((70 : ℕ) : ℝ))⌋.toNat)⟩, false)) ∧
    (3 * ((70 : ℕ) : ℝ) ≤
        color_distance (Pixel.mk 0 255 0 255).rgb (0, 255, 0) →
      applyKeyPixel (0, 255, 0) 70 ⟨0, 255, 0, 255⟩ = (⟨0, 255, 0, 255⟩, false))) :=
  ⟨by decide, applyKey_three_zone_policy (0, 255, 0) 70 ⟨0, 255, 0, 255⟩ (by decide)⟩

/-- C3 counterexample: with tolerance 0 a pixel exactly equal to the key
color (distance 0) is NOT made transparent — the guard `distance < 0` is
false, so its alpha stays 255 — contradicting the claim that exact
matches become fully transparent. -/
theorem tolerance_zero_exact_match_stays_opaque :
    colorDist2 (Pixel.mk 0 255 0 255).rgb (0, 255, 0) = 0 ∧
    (applyKeyPixel (0, 255, 0) 0 ⟨0, 255, 0, 255⟩).1.a = 255 ∧
    (applyKeyPixelSpec (0, 255, 0) 0 ⟨0, 255, 0, 255⟩).1.a = 255 := by
  refine ⟨by decide, by decide, ?_⟩
  rw [← applyKeyPixel_eq_spec]
  decide

/-- C3 amended: with tolerance 0 no branch of the per-pixel policy fires
— in particular the graduated ramp (the only division) is never evaluated,
so there is no division by zero — and every pixel, exact key matches
included, is left unchanged and uncounted; the whole loop returns the
buffer unchanged with `pixels_made_transparent = 0`. -/
theorem tolerance_zero_leaves_buffer_unchanged (key : Color) (p : Pixel)
    (buf : Buffer) :
    applyKeyPixel key 0 p = (p, false) ∧
    applyKeyPixelSpec key 0 p = (p, false) ∧
    chromakeyLoop key 0 buf = (buf, (buf.map List.length).sum, 0) := by
  have hpix : ∀ q : Pixel, applyKeyPixel key 0 q = (q, false) := by
    intro q
    unfold applyKeyPixel
    simp
  refine ⟨hpix p, ?_, ?_⟩
  · rw [← applyKeyPixel_eq_spec]
    exact hpix p
  · rw [chromakeyLoop_spec]
    simp [hpix]

/-! ## C6: `parse_hex_color` (utils.py, lines 9–21) -/

/-- ASCII hexadecimal digit (`0-9`, `a-f`, `A-F`), by code point. -/
def isAsciiHexDigit (c : Char) : Bool :=
  (48 ≤ c.toNat && c.toNat ≤ 57) || (97 ≤ c.toNat && c.toNat ≤ 102) ||
    (65 ≤ c.toNat && c.toNat ≤ 70)

/-- Value of an ASCII hexadecimal digit. -/
def hexDigitVal (c : Char) : ℕ :=
  if c.toNat ≤ 57 then c.toNat - 48
  else if 97 ≤ c.toNat then c.toNat - 87
  else c.toNat - 55

/-- ASCII whitespace as stripped by Python's `int(s, base)`
(space, tab, LF, CR, VT, FF; the model is scoped to ASCII input). -/
def isPyWhitespace (c : Char) : Bool :=
  c.toNat = 32 || c.toNat = 9 || c.toNat = 10 || c.toNat = 13 ||
    c.toNat = 11 || c.toNat = 12

/-- A single hex digit parsed as an integer, else `none`. -/
def hexVal1 (c : Char) : Option ℤ :=
  if isAsciiHexDigit c then some (hexDigitVal c) else none

/-- Python's `int(s, 16)` on a two-character string `s = c1c2` (ASCII
scope).  After stripping surrounding whitespace the remainder must be an
optional sign followed by hex digits (a bare `0x` prefix leaves no digits,
and an underscore needs digits on both sides, so neither fits in the two
remaining characters): the accepted two-character forms are two hex
digits, sign + digit, whitespace + digit, and digit + whitespace. -/
def pyIntHex2 (c1 c2 : Char) : Option ℤ :=
  if isPyWhitespace c1 && isPyWhitespace c2 then none
  else if isPyWhitespace c1 then hexVal1 c2
  else if isPyWhitespace c2 then hexVal1 c1
  else if c1.toNat = 43 then hexVal1 c2
  else if c1.toNat = 45 then (hexVal1 c2).map (fun v => -v)
  else if isAsciiHexDigit c1 && isAsciiHexDigit c2 then
    some (16 * hexDigitVal c1 + hexDigitVal c2)
  else none

/-- The function `utils.parse_hex_color`:

```
hex_color = hex_color.lstrip('#')
if len(hex_color) != 6:
    raise ValueError(...)
return tuple(int(hex_color[i:i+2], 16) for i in (0, 2, 4))
```

`lstrip('#')` removes EVERY leading `'#'` (not just one), and each
two-character slice goes through Python's `int(·, 16)` (`pyIntHex2`).
`none` models the raised `ValueError`. -/
def parse_hex_color (s : String) : Option (ℤ × ℤ × ℤ) :=
  match s.data.dropWhile (fun c => c = '#') with
  | [c1, c2, c3, c4, c5, c6] =>
      (pyIntHex2 c1 c2).bind fun r =>
        (pyIntHex2 c3 c4).bind fun g =>
          (pyIntHex2 c5 c6).bind fun b => some (r, g, b)
  | _ => none

/-- The acceptance set stated by the claim: an optional SINGLE leading
`'#'` followed by exactly six hexadecimal digits. -/
def claimedHexForm (s : String) : Bool :=
  let cs := match s.data with
    | '#' :: rest => rest
    | cs => cs
  cs.length = 6 && cs.all isAsciiHexDigit

/-- C6 counterexample: `"##00FF00"` is outside the claimed acceptance set
(two leading `'#'`), yet `parse_hex_color` accepts it and returns
`(0, 255, 0)` instead of raising a parse error. -/
theorem parse_hex_color_accepts_double_hash :
    parse_hex_color "##00FF00" = some (0, 255, 0) ∧
    claimedHexForm "##00FF00" = false := by decide

/-- Any number of leading `'#'` is stripped wholesale. -/
theorem dropWhile_replicate_append (k : ℕ) (l : List Char) :
    (List.replicate k '#' ++ l).dropWhile (fun c => c = '#') =
      l.dropWhile (fun c => c = '#') := by
  induction k with
  | zero => simp
  | succ n ih =>
      rw [List.replicate_succ, List.cons_append,
        List.dropWhile_cons_of_pos (by simp)]
      exact ih

/-- On two hex digits, Python's `int(·, 16)` returns the place value. -/
theorem pyIntHex2_hex (c1 c2 : Char) (h1 : isAsciiHexDigit c1 = true)
    (h2 : isAsciiHexDigit c2 = true) :
    pyIntHex2 c1 c2 = some (16 * hexDigitVal c1 + hexDigitVal c2) := by
  have w1 : isPyWhitespace c1 = false := by
    unfold isAsciiHexDigit at h1
    unfold isPyWhitespace
    simp only [Bool.or_eq_true, Bool.and_eq_true, decide_eq_true_eq] at h1
    simp only [Bool.or_eq_false_iff, decide_eq_false_iff_not]
    omega
  have w2 : isPyWhitespace c2 = false := by
    unfold isAsciiHexDigit at h2
    unfold isPyWhitespace
    simp only [Bool.or_eq_true, Bool.and_eq_true, decide_eq_true_eq] at h2
    simp only [Bool.or_eq_false_iff, decide_eq_false_iff_not]
    omega
  have s1 : ¬ c1.toNat = 43 := by
    unfold isAsciiHexDigit at h1
    simp only [Bool.or_eq_true, Bool.and_eq_true, decide_eq_true_eq] at h1
    omega
  have s2 : ¬ c1.toNat = 45 := by
    unfold isAsciiHexDigit at h1
    simp only [Bool.or_eq_true, Bool.and_eq_true, decide_eq_true_eq] at h1
    omega
  unfold pyIntHex2
  rw [w1, w2]
  simp [s1, s2, h1, h2]

/-- C6 amended: `lstrip('#')` strips EVERY leading `'#'`, so
`parse_hex_color` accepts any number of leading `'#'` followed by six hex
digits (returning the corresponding triple), and rejects every string
whose remainder after stripping all leading `'#'` does not have exactly
six characters.  (Among length-6 remainders, Python's `int(·, 16)`
additionally tolerates slices that are a hex digit beside a sign or
whitespace character — see `pyIntHex2` — so some non-hex strings are also
accepted, possibly with negative channels.) -/
theorem parse_hex_color_amended :
    (∀ (k : ℕ) (c1 c2 c3 c4 c5 c6 : Char),
      isAsciiHexDigit c1 = true → isAsciiHexDigit c2 = true →
      isAsciiHexDigit c3 = true → isAsciiHexDigit c4 = true →
      isAsciiHexDigit c5 = true → isAsciiHexDigit c6 = true →
      parse_hex_color ⟨List.replicate k '#' ++ [c1, c2, c3, c4, c5, c6]⟩ =
        some (16 * (hexDigitVal c1 : ℤ) + (hexDigitVal c2 : ℤ),
          16 * (hexDigitVal c3 : ℤ) + (hexDigitVal c4 : ℤ),
          16 * (hexDigitVal c5 : ℤ) + (hexDigitVal c6 : ℤ))) ∧
    (∀ s : String, (s.data.dropWhile (fun c => c = '#')).length ≠ 6 →
      parse_hex_color s = none) := by
  constructor
  · intro k c1 c2 c3 c4 c5 c6 h1 h2 h3 h4 h5 h6
    unfold parse_hex_color
    have hne : ¬ (c1 = '#') := by
      intro h
      rw [h] at h1
      exact absurd h1 (by decide)
    rw [show (String.mk (List.replicate k '#' ++ [c1, c2, c3, c4, c5, c6])).data
        = List.replicate k '#' ++ [c1, c2, c3, c4, c5, c6] from rfl,
      dropWhile_replicate_append,
      List.dropWhile_cons_of_neg (by simpa using hne)]
    simp [pyIntHex2_hex c1 c2 h1 h2, pyIntHex2_hex c3 c4 h3 h4,
      pyIntHex2_hex c5 c6 h5 h6]
  · intro s hs
    unfold parse_hex_color
    rcases hl : s.data.dropWhile (fun c => c = '#') with
      _ | ⟨a, _ | ⟨b, _ | ⟨c, _ | ⟨d, _ | ⟨e, _ | ⟨f, _ | ⟨g, rest⟩⟩⟩⟩⟩⟩⟩ <;>
      simp_all

/-- Witness for `parse_hex_color_amended`: the acceptance half applied at
`"##00FF00"` (two `'#'`, then six hex digits), the rejection half applied
at `"abc"`. -/
theorem parse_hex_color_amended_witness :
    parse_hex_color ⟨List.replicate 2 '#' ++ ['0', '0', 'F', 'F', '0', '0']⟩ =
      some (16 * (hexDigitVal '0' : ℤ) + (hexDigitVal '0' : ℤ),
        16 * (hexDigitVal 'F' : ℤ) + (hexDigitVal 'F' : ℤ),
        16 * (hexDigitVal '0' : ℤ) + (hexDigitVal '0' : ℤ)) ∧
    parse_hex_color "abc" = none :=
  ⟨parse_hex_color_amended.1 2 '0' '0' 'F' 'F' '0' '0' (by decide) (by decide)
      (by decide) (by decide) (by decide) (by decide),
    parse_hex_color_amended.2 "abc" (by decide)⟩

/-! ## Filesystem model (for `safe_output_path`, `save_image_to_path` and
the operation pipelines of server.py) -/

/-- Contents of one file.  `image fmt buf` stands for the bytes produced by
the codec collaborator encoding buffer `buf` in format `fmt`; `emptyFile`
is the zero-byte file created by `mkstemp`; `raw n` is opaque non-image
content. -/
inductive FileData where
  | image (format : String) (buf : Buffer)
  | emptyFile
  | raw (n : ℕ)
deriving DecidableEq

/-- A filesystem state: a partial map from (canonical, absolute) paths to
file contents, plus the set of existing directories. -/
structure FS where
  files : String → Option FileData
  dirs : List String

def lookupFile (fs : FS) (p : String) : Option FileData := fs.files p

def writeFile (fs : FS) (p : String) (d : FileData) : FS :=
  { fs with files := fun q => if q = p then some d else fs.files q }

def removeFile (fs : FS) (p : String) : FS :=
  { fs with files := fun q => if q = p then none else fs.files q }

/-- Python's `Path.exists()`. -/
def fileExists (fs : FS) (p : String) : Bool := (lookupFile fs p).isSome

/-- Python's `Path.parent` of a canonical absolute path: everything before the last
`'/'` (and `"/"` for a top-level entry). -/
def parentDir (p : String) : String :=
  let core := ((p.data.reverse.dropWhile (fun c => c ≠ '/')).drop 1).reverse
  if core.isEmpty then "/" else String.mk core

theorem lookupFile_writeFile_self (fs : FS) (p : String) (d : FileData) :
    lookupFile (writeFile fs p d) p = some d := by
  simp [lookupFile, writeFile]

theorem lookupFile_writeFile_ne (fs : FS) (p q : String) (d : FileData)
    (h : q ≠ p) : lookupFile (writeFile fs p d) q = lookupFile fs q := by
  simp [lookupFile, writeFile, h]

theorem lookupFile_removeFile_self (fs : FS) (p : String) :
    lookupFile (removeFile fs p) p = none := by
  simp [lookupFile, removeFile]

theorem lookupFile_removeFile_ne (fs : FS) (p q : String) (h : q ≠ p) :
    lookupFile (removeFile fs p) q = lookupFile fs q := by
  simp [lookupFile, removeFile, h]

/-- Python's `Path.unlink()`: removes the file, raising `FileNotFoundError` when it
does not exist. -/
def unlink (fs : FS) (p : String) : FS × Option String :=
  if fileExists fs p then (removeFile fs p, none)
  else (fs, some "FileNotFoundError")

/-- The `finally:` block of `safe_output_path` (lines 61–64):
`if temp_path.exists(): temp_path.unlink()`. -/
def cleanupTemp (fs : FS) (p : String) : FS × Option String :=
  if fileExists fs p then unlink fs p else (fs, none)

/-- Python's `shutil.move(temp, output)` inside one directory: an atomic rename;
fails when the source is missing. -/
def moveFile (fs : FS) (src dst : String) : FS × Option String :=
  match lookupFile fs src with
  | some d => (writeFile (removeFile fs src) dst d, none)
  | none => (fs, some "move: no such file")

/-- Python's `tempfile.mkstemp(suffix=..., dir=dir)` followed by `os.close(fd)`:
creates a fresh empty file named `freshName` in `dir` (the fresh name the
library would choose is passed explicitly); raises when `dir` does not
exist.  No directory is ever created. -/
def mkstemp (fs : FS) (dir : String) (freshName : String) : FS × Option String :=
  if dir ∈ fs.dirs then (writeFile fs freshName .emptyFile, none)
  else (fs, some "mkstemp: no such file or directory")

/-- The coordinator `safe_output_path` (server.py, lines 39–64), the atomic-write
coordinator.  `body` is the caller's `with`-block (its write into the
yielded path); it returns the new filesystem and `some e` when it raises
`e`.  `Path.resolve()` is the identity on the canonical paths of the
model, so `same_path` is plain equality.

```
same_path = input_path.resolve() == output_path.resolve()
if not same_path:
    yield output_path
    return
fd, temp_path_str = tempfile.mkstemp(suffix=..., dir=output_path.parent)
os.close(fd)
try:
    yield temp_path
    shutil.move(str(temp_path), str(output_path))
finally:
    if temp_path.exists():
        temp_path.unlink()
```
-/
def safe_output_path (fs : FS) (input_path output_path : String)
    (tmpName : String) (body : FS → String → FS × Option String) :
    FS × Option String :=
  if ¬ (input_path = output_path) then body fs output_path
  else
    let m := mkstemp fs (parentDir output_path) tmpName
    match m.2 with
    | some e => (m.1, some e)
    | none =>
        let r := body m.1 tmpName
        match r.2 with
        | some e => ((cleanupTemp r.1 tmpName).1, some e)
        | none =>
            let mv := moveFile r.1 tmpName output_path
            match mv.2 with
            | some e => ((cleanupTemp mv.1 tmpName).1, some e)
            | none => cleanupTemp mv.1 tmpName

/-- Width and height of a buffer (PIL `img.width`, `img.height`). -/
def bufWidth (buf : Buffer) : ℕ := (buf.headD []).length

def bufHeight (buf : Buffer) : ℕ := buf.length

/-- The metadata dictionary returned by `save_image_to_path`
(`size_bytes` is not modelled: the byte length of an encoding is outside
the model). -/
structure SaveResult where
  output_path : String
  format : String
  dimensions : ℕ × ℕ
deriving DecidableEq, Repr

/-- PIL's `img.save(path, format)`: encode `buf` as `fmt` and write it at `p`;
fails when the parent directory does not exist.  No directory is ever
created. -/
def imgSave (fs : FS) (p : String) (fmt : String) (buf : Buffer) :
    FS × Option String :=
  if parentDir p ∈ fs.dirs then (writeFile fs p (.image fmt buf), none)
  else (fs, some "save: no such file or directory")

/-- The helper `save_image_to_path` (server.py, lines 27–36): save the image, then
return the metadata dictionary. -/
def save_image_to_path (fs : FS) (buf : Buffer) (output_path format : String) :
    (FS × Option String) × SaveResult :=
  (imgSave fs output_path format buf,
    { output_path := output_path, format := format,
      dimensions := (bufWidth buf, bufHeight buf) })

/-! ## C1: rollback and idempotent cleanup of `safe_output_path` -/

/-- C1: for a same-path invocation (resolved source = resolved
destination) whose staged write fails: provided the temporary name is
fresh, distinct from the destination, the destination's directory exists,
the body raises `e` and the body touches no path other than the yielded
temporary file, `safe_output_path` propagates `e`, the destination's
bytes are exactly as before the call, and the temporary file is gone.
Moreover, on the success path, after `shutil.move` has consumed the
temporary file, the `finally:` cleanup step is a no-op that reports no
error (cleanup is idempotent when the file is already gone). -/
theorem safe_output_path_rollback (fs : FS) (p tmp e : String)
    (body : FS → String → FS × Option String)
    (_hfresh : lookupFile fs tmp = none)
    (hne : tmp ≠ p)
    (hdir : parentDir p ∈ fs.dirs)
    (herr : (body (writeFile fs tmp .emptyFile) tmp).2 = some e)
    (hframe : ∀ q, q ≠ tmp →
      lookupFile (body (writeFile fs tmp .emptyFile) tmp).1 q =
        lookupFile (writeFile fs tmp .emptyFile) q) :
    (safe_output_path fs p p tmp body).2 = some e ∧
    lookupFile (safe_output_path fs p p tmp body).1 p = lookupFile fs p ∧
    lookupFile (safe_output_path fs p p tmp body).1 tmp = none ∧
    (∀ (g : FS) (d : FileData), lookupFile g tmp = some d → tmp ≠ p →
      cleanupTemp (moveFile g tmp p).1 tmp = ((moveFile g tmp p).1, none)) := by
  have hm : mkstemp fs (parentDir p) tmp =
      (writeFile fs tmp .emptyFile, none) := by
    simp [mkstemp, hdir]
  have hres : safe_output_path fs p p tmp body =
      ((cleanupTemp (body (writeFile fs tmp .emptyFile) tmp).1 tmp).1,
        some e) := by
    unfold safe_output_path
    rw [if_neg (by simp)]
    rw [hm]
    simp only
    rw [herr]
  have hclean : ∀ (g : FS) (d : FileData), lookupFile g tmp = some d →
      tmp ≠ p →
      cleanupTemp (moveFile g tmp p).1 tmp = ((moveFile g tmp p).1, none) := by
    intro g d hg hne'
    have hmv : moveFile g tmp p =
        (writeFile (removeFile g tmp) p d, none) := by
      simp [moveFile, hg]
    rw [hmv]
    have : fileExists (writeFile (removeFile g tmp) p d) tmp = false := by
      simp [fileExists, lookupFile_writeFile_ne _ _ _ _ hne',
        lookupFile_removeFile_self]
    simp [cleanupTemp, this]
  refine ⟨by rw [hres], ?_, ?_, hclean⟩
  · rw [hres]
    set fs2 := (body (writeFile fs tmp .emptyFile) tmp).1 with hfs2
    have hp2 : lookupFile fs2 p = lookupFile fs p := by
      rw [hframe p (fun h => hne h.symm),
        lookupFile_writeFile_ne _ _ _ _ (fun h => hne h.symm)]
    unfold cleanupTemp
    by_cases hex : fileExists fs2 tmp
    · rw [if_pos hex]
      unfold unlink
      rw [if_pos hex]
      simpa [lookupFile_removeFile_ne _ _ _ (fun h => hne h.symm)] using hp2
    · rw [if_neg hex]
      exact hp2
  · rw [hres]
    set fs2 := (body (writeFile fs tmp .emptyFile) tmp).1 with hfs2
    unfold cleanupTemp
    by_cases hex : fileExists fs2 tmp
    · rw [if_pos hex]
      unfold unlink
      rw [if_pos hex]
      exact lookupFile_removeFile_self _ _
    · rw [if_neg hex]
      simpa [fileExists] using hex

/-- Concrete filesystem for the C1 witness: one image file in `/d`. -/
def fsC1 : FS :=
  { files := fun q => if q = "/d/img.png" then some (.raw 7) else none,
    dirs := ["/d"] }

/-- A body that writes nothing and raises "disk full". -/
def failingBody : FS → String → FS × Option String :=
  fun g _ => (g, some "disk full")

/-- Witness for `safe_output_path_rollback`: an in-place write of
`/d/img.png` staged through `/d/tmp42.png` whose body fails with
"disk full"; the error propagates, the original content `raw 7` is
untouched, and the temporary file is gone. -/
theorem safe_output_path_rollback_witness :
    lookupFile fsC1 "/d/tmp42.png" = none ∧
    parentDir "/d/img.png" ∈ fsC1.dirs ∧
    (safe_output_path fsC1 "/d/img.png" "/d/img.png" "/d/tmp42.png"
      failingBody).2 = some "disk full" ∧
    lookupFile (safe_output_path fsC1 "/d/img.png" "/d/img.png" "/d/tmp42.png"
      failingBody).1 "/d/img.png" = some (.raw 7) ∧
    lookupFile (safe_output_path fsC1 "/d/img.png" "/d/img.png" "/d/tmp42.png"
      failingBody).1 "/d/tmp42.png" = none := by
  have h := safe_output_path_rollback fsC1 "/d/img.png" "/d/tmp42.png"
    "disk full" failingBody (by rfl) (by decide) (by decide) (by rfl)
    (fun q _ => rfl)
  exact ⟨by rfl, by decide, h.1, by rw [h.2.1]; rfl, h.2.2.1⟩

/-! ## The `chromakey_to_transparent` operation (server.py, lines 67–132) -/

/-- Python's `Path.is_absolute()` on POSIX canonical paths. -/
def isAbsolutePath (p : String) : Bool := p.data.headD ' ' = '/'

/-- The success payload of `chromakey_to_transparent` (the JSON document
of line 132; `size_bytes` is not modelled). -/
structure ChromaResult where
  output_path : String
  format : String
  dimensions : ℕ × ℕ
  key_color : String
  tolerance : ℕ
  pixels_processed : ℕ
  pixels_made_transparent : ℕ
deriving DecidableEq, Repr

/-- The operation `chromakey_to_transparent` over the filesystem model.  `Except.error`
covers both the structured `{"error": ...}` results (validation, missing
input, bad color) and exceptions that escape the function (I/O failures
during staging/saving, which the source does not catch).  The input image
is stored decoded (`FileData.image`); `img.convert('RGBA')` is implicit in
`Buffer` being RGBA.  The body of the `with safe_output_path(...)` block
is `save_image_to_path(img, actual_output, "PNG")`. -/
def chromakey_to_transparent (fs : FS) (input_path output_path : String)
    (key_color : String) (tolerance : ℕ) (tmpName : String) :
    FS × Except String ChromaResult :=
  if ¬ isAbsolutePath input_path then
    (fs, .error "input_path must be an absolute path")
  else if ¬ isAbsolutePath output_path then
    (fs, .error "output_path must be an absolute path")
  else if ¬ fileExists fs input_path then
    (fs, .error "Input file not found")
  else
    match parse_hex_color key_color with
    | none => (fs, .error "Invalid hex color")
    | some key =>
        match lookupFile fs input_path with
        | some (.image _ buf) =>
            let r := chromakeyLoop key tolerance buf
            let w := safe_output_path fs input_path output_path tmpName
              (fun g target => (save_image_to_path g r.1 target "PNG").1)
            match w.2 with
            | some e => (w.1, .error e)
            | none =>
                (w.1, .ok
                  { output_path := output_path, format := "PNG",
                    dimensions := (bufWidth r.1, bufHeight r.1),
                    key_color := key_color, tolerance := tolerance,
                    pixels_processed := r.2.1,
                    pixels_made_transparent := r.2.2 })
        | _ => (fs, .error "cannot identify image file")

/-- When `safe_output_path` runs the saving body to completion without
error, the destination holds the encoding the body wrote. -/
theorem safe_output_path_save_success (fs : FS) (inp out tmp : String)
    (buf : Buffer) (fmt : String) (htmp : tmp ≠ out) :
    (safe_output_path fs inp out tmp
        (fun g target => (save_image_to_path g buf target fmt).1)).2 = none →
      lookupFile (safe_output_path fs inp out tmp
        (fun g target => (save_image_to_path g buf target fmt).1)).1 out =
        some (.image fmt buf) := by
  intro hok
  unfold safe_output_path at hok ⊢
  by_cases hsame : inp = out
  · rw [if_neg (by simpa using hsame)] at hok ⊢
    by_cases hdir : parentDir out ∈ fs.dirs
    · have hm : mkstemp fs (parentDir out) tmp =
          (writeFile fs tmp .emptyFile, none) := by simp [mkstemp, hdir]
      rw [hm] at hok ⊢
      simp only at hok ⊢
      by_cases hdt : parentDir tmp ∈ (writeFile fs tmp .emptyFile).dirs
      · have hsave : (save_image_to_path (writeFile fs tmp .emptyFile) buf
            tmp fmt).1 =
            (writeFile (writeFile fs tmp .emptyFile) tmp (.image fmt buf),
              none) := by
          simp [save_image_to_path, imgSave, hdt]
        rw [hsave] at hok ⊢
        simp only at hok ⊢
        have hmv : moveFile
            (writeFile (writeFile fs tmp .emptyFile) tmp (.image fmt buf))
            tmp out =
            (writeFile (removeFile
              (writeFile (writeFile fs tmp .emptyFile) tmp (.image fmt buf))
              tmp) out (.image fmt buf), none) := by
          simp [moveFile, lookupFile_writeFile_self]
        rw [hmv] at hok ⊢
        simp only at hok ⊢
        have hex : fileExists (writeFile (removeFile
            (writeFile (writeFile fs tmp .emptyFile) tmp (.image fmt buf))
            tmp) out (.image fmt buf)) tmp = false := by
          simp [fileExists, lookupFile_writeFile_ne _ _ _ _ htmp,
            lookupFile_removeFile_self]
        rw [cleanupTemp, hex] at hok ⊢
        simp only [Bool.false_eq_true, if_false] at hok ⊢
        exact lookupFile_writeFile_self _ _ _
      · have hsave : (save_image_to_path (writeFile fs tmp .emptyFile) buf
            tmp fmt).1 =
            (writeFile fs tmp .emptyFile,
              some "save: no such file or directory") := by
          simp [save_image_to_path, imgSave, hdt]
        rw [hsave] at hok
        simp at hok
    · have hm : mkstemp fs (parentDir out) tmp =
          (fs, some "mkstemp: no such file or directory") := by
        simp [mkstemp, hdir]
      rw [hm] at hok
      simp at hok
  · rw [if_pos (by simpa using hsame)] at hok ⊢
    beta_reduce at hok ⊢
    by_cases hdir : parentDir out ∈ fs.dirs
    · have hsave : (save_image_to_path fs buf out fmt).1 =
          (writeFile fs out (.image fmt buf), none) := by
        simp [save_image_to_path, imgSave, hdir]
      rw [hsave]
      exact lookupFile_writeFile_self _ _ _
    · have hsave : (save_image_to_path fs buf out fmt).1 =
          (fs, some "save: no such file or directory") := by
        simp [save_image_to_path, imgSave, hdir]
      rw [hsave] at hok
      simp at hok

/-- C10: whenever `chromakey_to_transparent` succeeds, the reported format
is PNG and the destination file holds PNG-encoded bytes — regardless of
the output path's extension.  (`tmp ≠ out` is the freshness of the name
`mkstemp` picks.) -/
theorem chromakey_always_png (fs : FS) (inp out kc : String) (t : ℕ)
    (tmp : String) (res : ChromaResult) (htmp : tmp ≠ out)
    (h : (chromakey_to_transparent fs inp out kc t tmp).2 = .ok res) :
    res.format = "PNG" ∧
    ∃ b : Buffer,
      lookupFile (chromakey_to_transparent fs inp out kc t tmp).1 out =
        some (.image "PNG" b) := by
  unfold chromakey_to_transparent at h ⊢
  by_cases h1 : isAbsolutePath inp
  · rw [if_neg (by simpa using h1)] at h ⊢
    by_cases h2 : isAbsolutePath out
    · rw [if_neg (by simpa using h2)] at h ⊢
      by_cases h3 : fileExists fs inp
      · rw [if_neg (by simpa using h3)] at h ⊢
        rcases hp : parse_hex_color kc with _ | key
        · rw [hp] at h
          simp at h
        · rw [hp] at h
          rcases hl : lookupFile fs inp with _ | d
          · rw [hl] at h
            simp at h
          · rcases d with ⟨fmt, buf⟩ | _ | n
            · rw [hl] at h
              simp only at h ⊢
              rcases hw : (safe_output_path fs inp out tmp
                  (fun g target => (save_image_to_path g
                    (chromakeyLoop key t buf).1 target "PNG").1)).2 with
                _ | e
              · rw [hw] at h
                simp only [Except.ok.injEq] at h
                subst h
                refine ⟨rfl, ⟨(chromakeyLoop key t buf).1, ?_⟩⟩
                exact safe_output_path_save_success fs inp out tmp
                  (chromakeyLoop key t buf).1 "PNG" htmp hw
              · rw [hw] at h
                simp at h
            · rw [hl] at h
              simp at h
            · rw [hl] at h
              simp at h
      · rw [if_pos (by simpa using h3)] at h
        simp at h
    · rw [if_pos (by simpa using h2)] at h
      simp at h
  · rw [if_pos (by simpa using h1)] at h
    simp at h

/-- Concrete filesystem for the C10 witness: a 1×1 green PNG in `/d`. -/
def fsC10 : FS :=
  { files := fun q =>
      if q = "/d/in.png" then some (.image "PNG" [[⟨0, 255, 0, 255⟩]])
      else none,
    dirs := ["/d"] }

/-- Witness for `chromakey_always_png`: keying `/d/in.png` into
`/d/out.jpg` succeeds, and despite the `.jpg` extension both the reported
format and the written bytes are PNG. -/
theorem chromakey_always_png_witness :
    "/d/tmp1" ≠ "/d/out.jpg" ∧
    (chromakey_to_transparent fsC10 "/d/in.png" "/d/out.jpg" "#00FF00" 70
        "/d/tmp1").2 =
      .ok (ChromaResult.mk "/d/out.jpg" "PNG" (1, 1) "#00FF00" 70 1 1) ∧
    ∃ b : Buffer,
      lookupFile (chromakey_to_transparent fsC10 "/d/in.png" "/d/out.jpg"
        "#00FF00" 70 "/d/tmp1").1 "/d/out.jpg" = some (.image "PNG" b) := by
  have h : (chromakey_to_transparent fsC10 "/d/in.png" "/d/out.jpg"
      "#00FF00" 70 "/d/tmp1").2 =
      .ok (ChromaResult.mk "/d/out.jpg" "PNG" (1, 1) "#00FF00" 70 1 1) := by
    rfl
  exact ⟨by decide, h,
    (chromakey_always_png fsC10 "/d/in.png" "/d/out.jpg" "#00FF00" 70
      "/d/tmp1" _ (by decide) h).2⟩

/-! ## C4: no directory is ever created -/

/-- Concrete filesystem for C4: a 1×1 green PNG under the only existing
directory `/in`; the directory `/out` does not exist. -/
def fsC4 : FS :=
  { files := fun q =>
      if q = "/in/a.png" then some (.image "PNG" [[⟨0, 255, 0, 255⟩]])
      else none,
    dirs := ["/in"] }

/-- C4 counterexample: writing to `/out/b.png` while `/out` does not exist
does NOT create the missing parent directory — the operation fails, the
set of directories is unchanged, and no output file appears, contradicting
the claim that the destination's directory (including missing parents) is
created before any write attempt. -/
theorem chromakey_no_mkdir_counterexample :
    parentDir "/out/b.png" ∉ fsC4.dirs ∧
    (chromakey_to_transparent fsC4 "/in/a.png" "/out/b.png" "#00FF00" 70
      "/in/tmp1").2 = .error "save: no such file or directory" ∧
    (chromakey_to_transparent fsC4 "/in/a.png" "/out/b.png" "#00FF00" 70
      "/in/tmp1").1.dirs = fsC4.dirs ∧
    lookupFile (chromakey_to_transparent fsC4 "/in/a.png" "/out/b.png"
      "#00FF00" 70 "/in/tmp1").1 "/out/b.png" = none := by
  refine ⟨by decide, by rfl, by rfl, by rfl⟩

/-- C4 amended: no operation step creates a directory.  If the
destination's parent directory does not exist, the write — staged
(`mkstemp` in the same-path case) or direct (`img.save`) — fails with an
I/O error and the filesystem is left exactly as it was. -/
theorem chromakey_missing_parent_dir_errors (fs : FS)
    (inp out kc tmp : String) (t : ℕ) (key : Color) (fmt : String)
    (buf : Buffer)
    (h1 : isAbsolutePath inp = true) (h2 : isAbsolutePath out = true)
    (hl : lookupFile fs inp = some (.image fmt buf))
    (hp : parse_hex_color kc = some key)
    (hdir : parentDir out ∉ fs.dirs) :
    (chromakey_to_transparent fs inp out kc t tmp).1 = fs ∧
    ∃ e, (chromakey_to_transparent fs inp out kc t tmp).2 = .error e := by
  have hex : fileExists fs inp = true := by
    simp [fileExists, hl]
  have hw : (safe_output_path fs inp out tmp
      (fun g target => (save_image_to_path g (chromakeyLoop key t buf).1
        target "PNG").1)) =
      if ¬ (inp = out) then (fs, some "save: no such file or directory")
      else (fs, some "mkstemp: no such file or directory") := by
    unfold safe_output_path
    by_cases hsame : inp = out
    · rw [if_neg (by simpa using hsame), if_neg (by simpa using hsame)]
      have hm : mkstemp fs (parentDir out) tmp =
          (fs, some "mkstemp: no such file or directory") := by
        simp [mkstemp, hdir]
      rw [hm]
    · rw [if_pos (by simpa using hsame), if_pos (by simpa using hsame)]
      simp [save_image_to_path, imgSave, hdir]
  unfold chromakey_to_transparent
  rw [if_neg (by simp [h1]), if_neg (by simp [h2]), if_neg (by simp [hex]),
    hp, hl]
  simp only
  rw [hw]
  by_cases hsame : inp = out
  · rw [if_neg (by simpa using hsame)]
    exact ⟨rfl, "mkstemp: no such file or directory", rfl⟩
  · rw [if_pos (by simpa using hsame)]
    exact ⟨rfl, "save: no such file or directory", rfl⟩

/-- Witness for `chromakey_missing_parent_dir_errors` at the concrete
`fsC4` filesystem (the parent `/out` of the destination is missing). -/
theorem chromakey_missing_parent_dir_errors_witness :
    isAbsolutePath "/in/a.png" = true ∧
    isAbsolutePath "/out/b.png" = true ∧
    lookupFile fsC4 "/in/a.png" = some (.image "PNG" [[⟨0, 255, 0, 255⟩]]) ∧
    parse_hex_color "#00FF00" = some (0, 255, 0) ∧
    parentDir "/out/b.png" ∉ fsC4.dirs ∧
    (chromakey_to_transparent fsC4 "/in/a.png" "/out/b.png" "#00FF00" 70
        "/in/tmp1").1 = fsC4 ∧
    ∃ e, (chromakey_to_transparent fsC4 "/in/a.png" "/out/b.png" "#00FF00"
      70 "/in/tmp1").2 = .error e := by
  have h := chromakey_missing_parent_dir_errors fsC4 "/in/a.png" "/out/b.png"
    "#00FF00" "/in/tmp1" 70 (0, 255, 0) "PNG" [[⟨0, 255, 0, 255⟩]]
    (by decide) (by decide) (by rfl) (by rfl) (by decide)
  exact ⟨by decide, by decide, by rfl, by rfl, by decide, h.1, h.2⟩

/-! ## C7/C8: `resize_image` and `convert_format` -/

/-- Python-style truncation toward zero of a rational (`int(x)` applied to
an exact value). -/
def truncQ (q : ℚ) : ℤ := if 0 ≤ q then ⌊q⌋ else -⌊-q⌋

/-- The last path component (after the final `'/'`). -/
def lastComponent (p : String) : List Char :=
  (p.data.reverse.takeWhile (fun c => c ≠ '/')).reverse

/-- Python's `Path.suffix`: the extension of the last component, dot included; empty
when there is no dot, the dot is the first character (hidden file) or the
dot is the last character. -/
def pathSuffix (p : String) : String :=
  let name := lastComponent p
  let revExt := name.reverse.takeWhile (fun c => c ≠ '.')
  if 0 < revExt.length ∧ revExt.length + 1 < name.length then
    String.mk ('.' :: revExt.reverse)
  else ""

/-- Python's `str.lower()` (ASCII scope). -/
def strToLower (s : String) : String := String.mk (s.data.map Char.toLower)

/-- The `ext_to_format` mapping of `resize_image` (line 270) and
`convert_format` (line 346). -/
def ext_to_format : List (String × String) :=
  [(".png", "PNG"), (".jpg", "JPEG"), (".jpeg", "JPEG"), (".webp", "WEBP"),
    (".gif", "GIF"), (".bmp", "BMP")]

/-- The output format chosen by `resize_image` (line 272):
`ext_to_format.get(output_ext, "PNG")` — an unknown extension silently
falls back to PNG. -/
def resizeOutputFormat (output_path : String) : String :=
  (ext_to_format.lookup (strToLower (pathSuffix output_path))).getD "PNG"

/-- The names accepted for the `resample` argument (line 259). -/
def resample_filters : List String :=
  ["nearest", "bilinear", "bicubic", "lanczos"]

/-- The new-dimension computation of `resize_image` (lines 277–296), over
exact rationals (floats idealised; `int(...)` is `truncQ`):

```
if scale is not None:
    new_width, new_height = int(ow * scale), int(oh * scale)
elif width is not None and height is not None: ...
elif width is not None:
    new_width = width
    new_height = int(oh * (width / ow)) if maintain_aspect else oh
elif height is not None: (symmetric)
else: return error "Specify width, height, or scale"
```
-/
def resizeDims (ow oh : ℕ) (width height : Option ℤ) (scale : Option ℚ)
    (maintain_aspect : Bool) : Except String (ℤ × ℤ) :=
  match scale with
  | some s => .ok (truncQ ((ow : ℚ) * s), truncQ ((oh : ℚ) * s))
  | none =>
      match width, height with
      | some w, some h => .ok (w, h)
      | some w, none =>
          .ok (w, if maintain_aspect
            then truncQ ((oh : ℚ) * ((w : ℚ) / (ow : ℚ))) else (oh : ℤ))
      | none, some h =>
          .ok (if maintain_aspect
            then truncQ ((ow : ℚ) * ((h : ℚ) / (oh : ℚ))) else (ow : ℤ), h)
      | none, none => .error "Specify width, height, or scale"

/-- The success payload of `resize_image`. -/
structure ResizeResult where
  output_path : String
  format : String
  dimensions : ℕ × ℕ
  original_dimensions : ℕ × ℕ
  resample : String
deriving DecidableEq, Repr

/-- The operation `resize_image` (server.py, lines 229–317) over the filesystem model.
The resampling kernel and the white-background compositing are external
codec collaborators, passed as functions `resampleImpl` and `composite`;
buffers are modelled in RGBA, so the `mode != "RGB"` conversion branch
collapses into `composite`. -/
def resize_image (fs : FS) (input_path output_path : String)
    (width height : Option ℤ) (scale : Option ℚ) (maintain_aspect : Bool)
    (resample : String) (resampleImpl : ℤ → ℤ → Buffer → Buffer)
    (composite : Buffer → Buffer) (tmpName : String) :
    FS × Except String ResizeResult :=
  if ¬ isAbsolutePath input_path then
    (fs, .error "input_path must be an absolute path")
  else if ¬ isAbsolutePath output_path then
    (fs, .error "output_path must be an absolute path")
  else if ¬ fileExists fs input_path then
    (fs, .error "Input file not found")
  else if ¬ (strToLower resample ∈ resample_filters) then
    (fs, .error "Invalid resample filter")
  else
    let output_format := resizeOutputFormat output_path
    match lookupFile fs input_path with
    | some (.image _ buf) =>
        match resizeDims (bufWidth buf) (bufHeight buf) width height scale
            maintain_aspect with
        | .error e => (fs, .error e)
        | .ok (nw, nh) =>
            let resized := resampleImpl nw nh buf
            let final := if output_format = "JPEG" then composite resized
              else resized
            let w := safe_output_path fs input_path output_path tmpName
              (fun g target =>
                (save_image_to_path g final target output_format).1)
            match w.2 with
            | some e => (w.1, .error e)
            | none =>
                (w.1, .ok (ResizeResult.mk output_path output_format
                  (bufWidth final, bufHeight final)
                  (bufWidth buf, bufHeight buf) resample))
    | _ => (fs, .error "cannot identify image file")

/-- The success payload of `convert_format`. -/
structure ConvertResult where
  output_path : String
  format : String
  dimensions : ℕ × ℕ
  original_format : String
deriving DecidableEq, Repr

/-- The operation `convert_format` (server.py, lines 320–373) over the filesystem model.
Unlike `resize_image`, an extension outside `ext_to_format` is a
structured error (line 350).  White-background compositing for the
non-transparent targets JPEG/BMP is the external `composite`
collaborator; the encoder `quality` option has no observable effect in
the model. -/
def convert_format (fs : FS) (input_path output_path : String)
    (_quality : ℕ) (composite : Buffer → Buffer) (tmpName : String) :
    FS × Except String ConvertResult :=
  if ¬ isAbsolutePath input_path then
    (fs, .error "input_path must be an absolute path")
  else if ¬ isAbsolutePath output_path then
    (fs, .error "output_path must be an absolute path")
  else if ¬ fileExists fs input_path then
    (fs, .error "Input file not found")
  else
    match ext_to_format.lookup (strToLower (pathSuffix output_path)) with
    | none => (fs, .error "Unsupported output extension")
    | some output_format =>
        match lookupFile fs input_path with
        | some (.image original_format buf) =>
            let final := if output_format = "JPEG" ∨ output_format = "BMP"
              then composite buf else buf
            let w := safe_output_path fs input_path output_path tmpName
              (fun g target =>
                (save_image_to_path g final target output_format).1)
            match w.2 with
            | some e => (w.1, .error e)
            | none =>
                (w.1, .ok (ConvertResult.mk output_path output_format
                  (bufWidth final, bufHeight final) original_format))
        | _ => (fs, .error "cannot identify image file")

deriving instance DecidableEq for Except

/-- Exact value of the derived dimension: truncating
`oh * (w / ow)` computed in exact rationals equals integer floor division
`oh * w / ow`. -/
theorem truncQ_aspect (ow oh : ℕ) (w : ℤ) (how : 0 < ow) (hw : 0 ≤ w) :
    truncQ ((oh : ℚ) * ((w : ℚ) / (ow : ℚ))) = (oh : ℤ) * w / (ow : ℤ) := by
  have hq : (0 : ℚ) ≤ (oh : ℚ) * ((w : ℚ) / (ow : ℚ)) := by
    apply mul_nonneg (by positivity)
    apply div_nonneg (by exact_mod_cast hw) (by positivity)
  rw [truncQ, if_pos hq]
  rw [show (oh : ℚ) * ((w : ℚ) / (ow : ℚ)) =
      (((oh : ℤ) * w : ℤ) : ℚ) / ((ow : ℕ) : ℚ) by push_cast; ring]
  rw [Rat.floor_intCast_div_natCast]

/-- C8: with `maintain_aspect = true` and only a width (resp. only a
height) given, `resize_image`'s dimension computation keeps the given
dimension and derives the other as the input aspect ratio applied to it,
rounded toward zero: `new_height = ⌊oh * w / ow⌋` (resp.
`new_width = ⌊ow * h / oh⌋`). -/
theorem resize_derives_missing_dimension (ow oh : ℕ) (w h : ℤ)
    (how : 0 < ow) (hoh : 0 < oh) (hw : 0 ≤ w) (hh : 0 ≤ h) :
    resizeDims ow oh (some w) none none true =
      .ok (w, (oh : ℤ) * w / (ow : ℤ)) ∧
    resizeDims ow oh none (some h) none true =
      .ok ((ow : ℤ) * h / (oh : ℤ), h) := by
  constructor
  · unfold resizeDims
    simp only [if_pos]
    rw [truncQ_aspect ow oh w how hw]
  · unfold resizeDims
    simp only [if_pos]
    rw [truncQ_aspect oh ow h hoh hh]

/-- Witness for `resize_derives_missing_dimension`: a 200×100 input with
`width=100` alone gives exactly 100×50. -/
theorem resize_derives_missing_dimension_witness :
    0 < 200 ∧ 0 ≤ (100 : ℤ) ∧
    resizeDims 200 100 (some 100) none none true = .ok (100, 50) ∧
    resizeDims 200 100 none (some 50) none true = .ok (100, 50) := by
  have h := resize_derives_missing_dimension 200 100 100 50 (by decide)
    (by decide) (by decide) (by decide)
  exact ⟨by decide, by decide, h.1.trans (by decide), h.2.trans (by decide)⟩

/-- Concrete filesystem for C7: a 1×1 green PNG under the directory
`/in`. -/
def fsC7 : FS :=
  { files := fun q =>
      if q = "/in/a.png" then some (.image "PNG" [[⟨0, 255, 0, 255⟩]])
      else none,
    dirs := ["/in"] }

/-- C7 counterexample: the extension `.xyz` is outside `ext_to_format`,
yet `resize_image` does NOT return a structured error — it silently falls
back to PNG, succeeds, and produces an output file, contradicting the
claim that both extension-driven operations reject unknown extensions. -/
theorem resize_unknown_extension_no_error :
    ext_to_format.lookup (strToLower (pathSuffix "/in/out.xyz")) = none ∧
    (resize_image fsC7 "/in/a.png" "/in/out.xyz" (some 1) none none true
      "lanczos" (fun _ _ b => b) id "/in/tmp1").2 =
      .ok (ResizeResult.mk "/in/out.xyz" "PNG" (1, 1) (1, 1) "lanczos") ∧
    lookupFile (resize_image fsC7 "/in/a.png" "/in/out.xyz" (some 1) none
      none true "lanczos" (fun _ _ b => b) id "/in/tmp1").1 "/in/out.xyz" =
      some (.image "PNG" [[⟨0, 255, 0, 255⟩]]) := by
  refine ⟨by decide, by rfl, by rfl⟩

/-- C7 amended: only `convert_format` rejects an output extension outside
the map with a structured error (producing no file and leaving the
filesystem untouched); `resize_image` instead silently falls back to
format PNG for unknown extensions. -/
theorem convert_rejects_unknown_extension (fs : FS)
    (inp out : String) (q : ℕ) (composite : Buffer → Buffer) (tmp : String)
    (h1 : isAbsolutePath inp = true) (h2 : isAbsolutePath out = true)
    (hex : fileExists fs inp = true)
    (hext : ext_to_format.lookup (strToLower (pathSuffix out)) = none) :
    (convert_format fs inp out q composite tmp).2 =
      .error "Unsupported output extension" ∧
    (convert_format fs inp out q composite tmp).1 = fs ∧
    resizeOutputFormat out = "PNG" := by
  unfold convert_format
  rw [if_neg (by simp [h1]), if_neg (by simp [h2]), if_neg (by simp [hex]),
    hext]
  exact ⟨rfl, rfl, by rw [resizeOutputFormat, hext]; rfl⟩

/-- Witness for `convert_rejects_unknown_extension` at `fsC7` and the
output path `/in/out.xyz`. -/
theorem convert_rejects_unknown_extension_witness :
    isAbsolutePath "/in/a.png" = true ∧
    fileExists fsC7 "/in/a.png" = true ∧
    ext_to_format.lookup (strToLower (pathSuffix "/in/out.xyz")) = none ∧
    (convert_format fsC7 "/in/a.png" "/in/out.xyz" 95 id "/in/tmp1").2 =
      .error "Unsupported output extension" ∧
    (convert_format fsC7 "/in/a.png" "/in/out.xyz" 95 id "/in/tmp1").1 =
      fsC7 ∧
    resizeOutputFormat "/in/out.xyz" = "PNG" := by
  have h := convert_rejects_unknown_extension fsC7 "/in/a.png" "/in/out.xyz"
    95 id "/in/tmp1" (by decide) (by decide) (by rfl) (by decide)
  exact ⟨by decide, by rfl, by decide, h.1, h.2.1, h.2.2⟩

/-! ## C9: `get_image_metadata` transparency detection
(server.py, lines 203–223) -/

/-- An opened PIL image as inspected by `get_image_metadata`: its mode
string, its bands (`img.getextrema()` reports one `(min, max)` pair per
band; we keep each band's full value list), and whether `img.info`
contains the key `'transparency'`. -/
structure PILImage where
  mode : String
  bands : List (List ℕ)
  infoTransparency : Bool

/-- The minimum entry of an 8-bit band as reported by `getextrema()`
(255 when the band is empty; band values are 8-bit, hence ≤ 255). -/
def bandMin (l : List ℕ) : ℕ := l.foldr min 255

/-- The transparency detection of `get_image_metadata`:

```
has_transparency = False
if img.mode == 'RGBA':
    extrema = img.getextrema()
    if len(extrema) >= 4:
        has_transparency = extrema[3][0] < 255
elif img.mode == 'P':
    has_transparency = 'transparency' in img.info
```

Only the modes `RGBA` and `P` are inspected; every other mode (including
the alpha-bearing `LA` and `PA`) reports `False`. -/
def has_transparency (img : PILImage) : Bool :=
  if img.mode = "RGBA" then
    if 4 ≤ img.bands.length then bandMin (img.bands.getD 3 []) < 255
    else false
  else if img.mode = "P" then img.infoTransparency
  else false

/-- The PIL modes that carry an alpha channel (the claim's
"alpha-bearing" images). -/
def alphaBearing (mode : String) : Bool :=
  mode = "RGBA" || mode = "LA" || mode = "PA"

/-- The alpha band of an alpha-bearing image: its last band. -/
def alphaBand (img : PILImage) : List ℕ :=
  img.bands.getD (img.bands.length - 1) []

/-- An image of mode `LA` (luminance + alpha), one pixel, fully
transparent. -/
def laImage : PILImage := PILImage.mk "LA" [[10], [0]] false

/-- C9 counterexample: the one-pixel `LA` image with alpha 0 is
alpha-bearing and has a pixel with alpha strictly below 255, so the claim
requires `has_transparency = true`; the code inspects only mode `RGBA`
and reports `false`. -/
theorem has_transparency_misses_LA :
    has_transparency laImage = false ∧
    alphaBearing laImage.mode = true ∧
    (∃ a ∈ alphaBand laImage, a < 255) := by
  refine ⟨by decide, by decide, ⟨0, by decide, by decide⟩⟩

/-- A band's reported minimum is below 255 exactly when some entry is. -/
theorem bandMin_lt_iff (l : List ℕ) :
    bandMin l < 255 ↔ ∃ a ∈ l, a < 255 := by
  induction l with
  | nil => simp [bandMin]
  | cons x xs ih =>
      rw [show bandMin (x :: xs) = min x (bandMin xs) from rfl, min_lt_iff,
        ih]
      constructor
      · rintro (h | ⟨a, ha, hlt⟩)
        · exact ⟨x, List.mem_cons_self x xs, h⟩
        · exact ⟨a, List.mem_cons_of_mem x ha, hlt⟩
      · rintro ⟨a, ha, hlt⟩
        rcases List.mem_cons.1 ha with rfl | ha
        · exact Or.inl hlt
        · exact Or.inr ⟨a, ha, hlt⟩

/-- C9 amended: `has_transparency` is true exactly when the image has mode
`RGBA` (not merely any alpha-bearing mode) and some pixel's alpha is
strictly below 255, or the image has mode `P` and declares a
`'transparency'` key; every other image — the alpha-bearing modes `LA`
and `PA` included — reports false.  (`RGBA` images always have 4 bands,
taken as a hypothesis.) -/
theorem has_transparency_characterization (img : PILImage)
    (hb : img.mode = "RGBA" → img.bands.length = 4) :
    has_transparency img = true ↔
      ((img.mode = "RGBA" ∧ ∃ a ∈ img.bands.getD 3 [], a < 255) ∨
        (img.mode = "P" ∧ img.infoTransparency = true)) := by
  by_cases hm : img.mode = "RGBA"
  · have hne : ("RGBA" : String) ≠ "P" := by decide
    rw [has_transparency, if_pos hm, if_pos (by rw [hb hm])]
    simp [hm, hne, bandMin_lt_iff]
  · by_cases hp : img.mode = "P"
    · rw [has_transparency, if_neg hm, if_pos hp]
      simp [hp, hm]
    · rw [has_transparency, if_neg hm, if_neg hp]
      simp [hm, hp]

/-- A 2-pixel RGBA image whose second pixel has alpha 128. -/
def rgbaImage : PILImage :=
  PILImage.mk "RGBA" [[1, 2], [3, 4], [5, 6], [255, 128]] false

/-- Witness for `has_transparency_characterization` at `rgbaImage`. -/
theorem has_transparency_characterization_witness :
    (rgbaImage.mode = "RGBA" → rgbaImage.bands.length = 4) ∧
    (has_transparency rgbaImage = true ↔
      ((rgbaImage.mode = "RGBA" ∧
          ∃ a ∈ rgbaImage.bands.getD 3 [], a < 255) ∨
        (rgbaImage.mode = "P" ∧ rgbaImage.infoTransparency = true))) :=
  ⟨fun _ => by decide, has_transparency_characterization rgbaImage
    (fun _ => by decide)⟩
